import Mathlib

/-!
Shallow embedding of `src/image/zero_crop_and_center/zero_crop_and_center.py`.

A numpy 2D array of pixel intensities is modelled as a `List (List Nat)`
(`Grid`): a list of rows, all of the same length for well-formed images.
Python/numpy slice indices may be negative, so slice endpoints are `Int`
and are normalized exactly the way Python normalizes slice bounds.
-/

namespace ZeroCropCenter

abbrev Grid := List (List Nat)

/-- numpy `a.shape[1]` for a rectangular 2D array: the length of the first
row (0 for an empty array). -/
def shape1 (g : Grid) : Nat := (g.headD []).length

/-- Python slice-bound normalization for a sequence of length `n`:
a negative index counts from the end (clamped below at 0), a non-negative
index is clamped above at `n`. -/
def pyIdx (n : Nat) (i : Int) : Nat :=
  if i < 0 then ((n : Int) + i).toNat else min i.toNat n

/-- Python `l[i:j]`. -/
def pySlice (l : List α) (i j : Int) : List α :=
  (l.drop (pyIdx l.length i)).take (pyIdx l.length j - pyIdx l.length i)

/-- Length of the Python slice `l[i:j]` of a sequence of length `n`
(what numpy reports as the shape of the slice along that axis). -/
def pySliceLen (n : Nat) (i j : Int) : Nat := pyIdx n j - pyIdx n i

/-- 2D slice `g[top:bottom, left:right]`. -/
def crop (g : Grid) (top bottom left right : Int) : Grid :=
  (pySlice g top bottom).map (fun row => pySlice row left right)

/-! ## `find_zero_bounding_box` -/

/-- One scan step of `find_zero_bounding_box`: a row is background when no
element exceeds the threshold (the loop keeps the row iff some `ele >
background_threshold`). -/
def rowIsBg (t : Nat) (row : List Nat) : Bool := row.all (fun e => e ≤ t)

/-- Number of leading background rows: the Python loop increments its
counter once per background row until the first non-background row. -/
def leadingBg (rows : Grid) (t : Nat) : Nat := (rows.takeWhile (rowIsBg t)).length

/-- numpy `g.T` for a rectangular 2D array: the list of columns. -/
def colsOf (g : Grid) : Grid :=
  (List.range (shape1 g)).map (fun j => g.map (fun row => row.getD j 0))

/-- `find_zero_bounding_box(image_array, background_threshold)`:
returns `(start_row, end_row+1, start_col, end_col+1)`.  The right-edge
scan initializes `end_col = image_array.shape[0] - 1` (the row count), as
in the source. -/
def findZeroBoundingBox (g : Grid) (t : Nat) : Int × Int × Int × Int :=
  let startRow : Int := leadingBg g t
  let endRow : Int := (g.length : Int) - 1 - leadingBg g.reverse t
  let startCol : Int := leadingBg (colsOf g) t
  let endCol : Int := (g.length : Int) - 1 - leadingBg (colsOf g).reverse t
  (startRow, endRow + 1, startCol, endCol + 1)

/-! ## `center_in_image` -/

/-- Total intensity of a grid (the denominator of
`scipy.ndimage.measurements.center_of_mass`). -/
def mass (g : Grid) : Nat := (g.map List.sum).sum

/-- Row moment: `Σ_i i * (sum of row i)`, the numerator of the row
coordinate of the center of mass. -/
def rowMoment (g : Grid) : Nat :=
  ((List.range g.length).map (fun i => i * (g.getD i []).sum)).sum

/-- Column moment: `Σ_i Σ_j j * g[i][j]`, the numerator of the column
coordinate of the center of mass. -/
def colMoment (g : Grid) : Nat :=
  (g.map (fun row => ((List.range row.length).map (fun j => j * row.getD j 0)).sum)).sum

/-- `math.floor(center_of_mass(g)[0])`, as exact rational floor (`Nat`
division); only meaningful when `mass g > 0` (scipy yields NaN otherwise
and `math.floor` raises). -/
def yCenterFloor (g : Grid) : Nat := rowMoment g / mass g

/-- `math.floor(center_of_mass(g)[1])`, as exact rational floor. -/
def xCenterFloor (g : Grid) : Nat := colMoment g / mass g

/-- Per-axis `diff = max(0, out_center - in_center)` of `center_in_image`
(lines `x_diff = max(0, x_center_out - x_center)` and the `y` analogue). -/
def axDiff (outDim cf : Nat) : Int := max 0 (((outDim / 2 : Nat) : Int) - (cf : Int))

/-- Per-axis shape of `output_array[diff : in_dim + diff]`
(`out_shape.shape[.]` in the source). -/
def axSliceLen (outDim inDim cf : Nat) : Nat :=
  pySliceLen outDim (axDiff outDim cf) ((inDim : Int) + axDiff outDim cf)

/-- Per-axis buffer: `in_dim - out_shape.shape[.]` when the slice came up
short, else 0 (the `y_buff`/`x_buff` computation). -/
def axBuff (outDim inDim cf : Nat) : Int :=
  if (axSliceLen outDim inDim cf : Int) < (inDim : Int)
  then (inDim : Int) - (axSliceLen outDim inDim cf : Int) else 0

/-- Per-axis start of the write target: `diff - buff`. -/
def axStart (outDim inDim cf : Nat) : Int :=
  axDiff outDim cf - axBuff outDim inDim cf

def yDiff (g : Grid) (outH : Nat) : Int := axDiff outH (yCenterFloor g)
def xDiff (g : Grid) (outW : Nat) : Int := axDiff outW (xCenterFloor g)
def yBuff (g : Grid) (outH : Nat) : Int := axBuff outH g.length (yCenterFloor g)
def xBuff (g : Grid) (outW : Nat) : Int := axBuff outW (shape1 g) (xCenterFloor g)
def rowStart (g : Grid) (outH : Nat) : Int := axStart outH g.length (yCenterFloor g)
def colStart (g : Grid) (outW : Nat) : Int := axStart outW (shape1 g) (xCenterFloor g)

/-- Python `row[c0:c1] = src` on one canvas row; the canvas has dtype
`uint8`, so stored values are narrowed mod 256 by the assignment. -/
def setRow (row : List Nat) (c0 c1 : Int) (src : List Nat) : List Nat :=
  let a := pyIdx row.length c0
  let b := pyIdx row.length c1
  row.take a ++ (src.map (fun v => v % 256)).take (b - a) ++ row.drop b

/-- numpy 2D slice assignment `canvas[r0:r1, c0:c1] = img` (shapes match in
every reachable use). -/
def setSlice2 (canvas : Grid) (r0 r1 c0 c1 : Int) (img : Grid) : Grid :=
  let a := pyIdx canvas.length r0
  let b := pyIdx canvas.length r1
  canvas.take a
    ++ List.zipWith (fun row src => setRow row c0 c1 src) ((canvas.drop a).take (b - a)) img
    ++ canvas.drop b

/-- Errors `center_in_image` / `find_zero_bounding_box` can raise:
`rankErr` for a non-2D array, the two shape errors of lines 92-100, and
`massErr` for `math.floor(nan)` when the input has zero total intensity
(scipy's center of mass of an all-zero array is NaN). -/
inductive Err where
  | rankErr | shapeHeightErr | shapeWidthErr | massErr
deriving DecidableEq

/-- `center_in_image(image_array, output_size)` on a 2D input: validates
the two strict-size preconditions, computes the floored center of mass,
the clamped offsets and buffers, and writes the input into the
zero-initialized `uint8` canvas. -/
def centerInImage (image : Grid) (outH outW : Nat) : Except Err Grid :=
  if outH ≤ image.length then .error .shapeHeightErr
  else if outW ≤ shape1 image then .error .shapeWidthErr
  else if mass image = 0 then .error .massErr
  else .ok (setSlice2 (List.replicate outH (List.replicate outW 0))
      (rowStart image outH) ((image.length : Int) + yDiff image outH)
      (colStart image outW) ((shape1 image : Int) + xDiff image outW) image)

/-! ## Rank checks -/

/-- A numpy array of arbitrary rank, as far as the two functions inspect
it: its shape vector, and its 2D payload (meaningful when the rank is 2). -/
structure NpArr where
  shape : List Nat
  data : Grid

/-- `find_zero_bounding_box` including the `len(image_array.shape) != 2`
check of lines 20-22. -/
def findZeroBoundingBoxND (a : NpArr) (t : Nat) : Except Err (Int × Int × Int × Int) :=
  if a.shape.length ≠ 2 then .error .rankErr
  else .ok (findZeroBoundingBox a.data t)

/-- `center_in_image` including the `len(image_array.shape) != 2` checks of
lines 84-90. -/
def centerInImageND (a : NpArr) (outH outW : Nat) : Except Err Grid :=
  if a.shape.length ≠ 2 then .error .rankErr
  else centerInImage a.data outH outW

def isRankErr : Except Err α → Bool
  | .error .rankErr => true
  | _ => false

def isShapeErr : Except Err α → Bool
  | .error .shapeHeightErr => true
  | .error .shapeWidthErr => true
  | _ => false

/-! ## Batch pipeline (invert, crop, center) -/

/-- numpy `np.invert` on a `uint8` pixel: bitwise complement on 8 bits. -/
def npInvert8 (v : Nat) : Nat := Nat.xor v 255

/-- One iteration of the batch loop on an already-loaded grid: optional
inversion, bounding box, crop, centering. -/
def runPipeline (invert : Bool) (g : Grid) (t outH outW : Nat) : Except Err Grid :=
  let img := if invert then g.map (List.map npInvert8) else g
  let box := findZeroBoundingBox img t
  let cropped := crop img box.1 box.2.1 box.2.2.1 box.2.2.2
  centerInImage cropped outH outW

/-- Cell access `g[r][c]` with background default 0. -/
def cellN (g : Grid) (r c : Nat) : Nat := (g.getD r []).getD c 0

/-- Normal form of one written canvas row: `a` zeros, the source row, then
`b` zeros. -/
def padRow (a b : Nat) (src : List Nat) : List Nat :=
  List.replicate a 0 ++ src ++ List.replicate b 0

/-- Number of trailing all-background columns of a grid (the maximal
suffix of columns each of which is entirely `≤ t`). -/
def trailingBgCols (g : Grid) (t : Nat) : Nat :=
  (((colsOf g).reverse).takeWhile (rowIsBg t)).length

end ZeroCropCenter

deriving instance DecidableEq for Except

namespace ZeroCropCenter

/-! ## General list helper lemmas -/

theorem takeWhile_all {α : Type} {p : α → Bool} :
    ∀ l : List α, (∀ a ∈ l, p a = true) → l.takeWhile p = l
  | [], _ => rfl
  | a :: l, h => by
    simp only [List.takeWhile_cons, h a (by simp), if_true]
    rw [takeWhile_all l (fun b hb => h b (by simp [hb]))]

theorem getD_append_lt {α : Type} (l m : List α) (d : α) :
    ∀ i, i < l.length → (l ++ m).getD i d = l.getD i d := by
  induction l with
  | nil => intro i h; simp at h
  | cons a l ih =>
    intro i h
    cases i with
    | zero => rfl
    | succ j => simpa using ih j (by simpa using h)

theorem getD_append_ge {α : Type} (l m : List α) (d : α) :
    ∀ i, l.length ≤ i → (l ++ m).getD i d = m.getD (i - l.length) d := by
  induction l with
  | nil => intro i _; simp
  | cons a l ih =>
    intro i h
    cases i with
    | zero => simp at h
    | succ j => simpa using ih j (by simpa using h)

theorem getD_replicate {α : Type} (a d : α) :
    ∀ (n i : Nat), (List.replicate n a).getD i d = if i < n then a else d := by
  intro n
  induction n with
  | zero => intro i; simp
  | succ m ih =>
    intro i
    cases i with
    | zero => simp
    | succ j =>
      rw [List.replicate_succ, List.getD_cons_succ, ih j]
      simp [Nat.succ_lt_succ_iff]

theorem getD_map_of_lt {α β : Type} (f : α → β) (d : β) (d' : α) :
    ∀ (l : List α) (i : Nat), i < l.length → (l.map f).getD i d = f (l.getD i d')
  | [], i, h => by simp at h
  | a :: l, 0, _ => rfl
  | a :: l, i + 1, h => by
    simp only [List.map_cons, List.getD_cons_succ]
    exact getD_map_of_lt f d d' l i (by simpa using h)

theorem getD_mem_of_lt {α : Type} (d : α) :
    ∀ (l : List α) (i : Nat), i < l.length → l.getD i d ∈ l
  | [], i, h => by simp at h
  | a :: l, 0, _ => by simp
  | a :: l, i + 1, h => by
    simp only [List.getD_cons_succ]
    exact List.mem_cons_of_mem a (getD_mem_of_lt d l i (by simpa using h))

theorem padded_getD {α : Type} (n m : Nat) (x d : α) (mid : List α) (i : Nat) :
    (List.replicate n x ++ mid ++ List.replicate m x).getD i d
      = if n ≤ i ∧ i < n + mid.length then mid.getD (i - n) d
        else if i < n + mid.length + m then x else d := by
  by_cases h1 : i < n
  · rw [getD_append_lt (List.replicate n x ++ mid) (List.replicate m x) d i
        (by simp only [List.length_append, List.length_replicate]; omega),
      getD_append_lt (List.replicate n x) mid d i
        (by simp only [List.length_replicate]; omega),
      getD_replicate, if_pos h1, if_neg (by omega), if_pos (by omega)]
  · by_cases h2 : i < n + mid.length
    · rw [getD_append_lt (List.replicate n x ++ mid) (List.replicate m x) d i
          (by simp only [List.length_append, List.length_replicate]; omega),
        getD_append_ge (List.replicate n x) mid d i
          (by simp only [List.length_replicate]; omega),
        List.length_replicate, if_pos (by omega)]
    · rw [getD_append_ge (List.replicate n x ++ mid) (List.replicate m x) d i
          (by simp only [List.length_append, List.length_replicate]; omega),
        List.length_append, List.length_replicate, getD_replicate]
      split_ifs <;> first | rfl | (exfalso; omega)

theorem zipWith_replicate_left {α β γ : Type} (f : α → β → γ) (x : α) :
    ∀ l : List β, List.zipWith f (List.replicate l.length x) l = l.map (f x)
  | [] => rfl
  | b :: l => by
    rw [List.length_cons, List.replicate_succ]
    simp only [List.zipWith_cons_cons, List.map_cons]
    rw [zipWith_replicate_left f x l]

theorem sum_map_mul (k : Nat) : ∀ l : List Nat, (l.map (fun i => i * k)).sum = l.sum * k
  | [] => by simp
  | a :: l => by simp [sum_map_mul k l, Nat.add_mul]

theorem two_mul_range_sum : ∀ n : Nat, 2 * (List.range n).sum = n * (n - 1)
  | 0 => rfl
  | n + 1 => by
    rw [List.range_succ, List.sum_append, Nat.mul_add, two_mul_range_sum n]
    cases n with
    | zero => rfl
    | succ m => simp; ring

theorem div_eq_of_eq_add (a n q r : Nat) (hn : 0 < n) (h : a = n * q + r) (hr : r < n) :
    a / n = q := by
  subst h
  rw [Nat.mul_add_div hn, Nat.div_eq_of_lt hr]
  omega

theorem range_sum_div (n : Nat) (hn : 0 < n) : (List.range n).sum / n = (n - 1) / 2 := by
  have h2 := two_mul_range_sum n
  rcases Nat.even_or_odd (n - 1) with he | ho
  · obtain ⟨q, hq⟩ := he
    have hq' : n - 1 = 2 * q := by omega
    have : n * (n - 1) = 2 * (n * q) := by rw [hq']; ring
    have hs : (List.range n).sum = n * q := by omega
    rw [hs, Nat.mul_div_cancel_left q hn, hq']
    omega
  · obtain ⟨q, hq⟩ := ho
    have hn2 : n = 2 * q + 2 := by omega
    have : n * (n - 1) = 2 * (n * q + q + 1) := by
      rw [hq, hn2]; ring
    have hs : (List.range n).sum = n * q + (q + 1) := by omega
    have := div_eq_of_eq_add _ n q (q + 1) hn hs (by omega)
    rw [this, hq]
    omega

/-! ## Placement geometry of `center_in_image` -/

theorem axStart_spec (outDim inDim cf : Nat) (h : inDim < outDim) :
    0 ≤ axStart outDim inDim cf ∧
    (axStart outDim inDim cf).toNat + inDim ≤ outDim ∧
    pyIdx outDim (axStart outDim inDim cf) = (axStart outDim inDim cf).toNat ∧
    pyIdx outDim ((inDim : Int) + axDiff outDim cf) = (axStart outDim inDim cf).toNat + inDim := by
  unfold axStart axBuff axSliceLen pySliceLen pyIdx axDiff
  split_ifs <;> omega

/-- When the naive placement fits (`inDim + diff ≤ outDim`), the buffer is
zero and the write starts exactly at the clamped diff. -/
theorem axStart_of_fits (outDim inDim cf : Nat)
    (hfit : (inDim : Int) + axDiff outDim cf ≤ (outDim : Int)) :
    axBuff outDim inDim cf = 0 ∧ axStart outDim inDim cf = axDiff outDim cf := by
  unfold axStart axBuff axSliceLen pySliceLen pyIdx axDiff
  unfold axDiff at hfit
  split_ifs <;> omega

theorem map_congr_mem {α β : Type} (f h : α → β) :
    ∀ l : List α, (∀ a ∈ l, f a = h a) → l.map f = l.map h
  | [], _ => rfl
  | a :: l, hc => by
    simp only [List.map_cons, hc a (by simp)]
    rw [map_congr_mem f h l (fun b hb => hc b (by simp [hb]))]

theorem isRankErr_centerInImage (g : Grid) (outH outW : Nat) :
    isRankErr (centerInImage g outH outW) = false := by
  unfold centerInImage
  split_ifs <;> rfl

set_option maxRecDepth 8192 in
theorem npInvert8_eq_sub : ∀ v < 256, npInvert8 v = 255 - v := by decide

/-! ## Center of mass of a uniform grid -/

theorem uniform_yCenterFloor (h w c : Nat) (hh : 0 < h) (hw : 0 < w) (hc : 0 < c) :
    yCenterFloor (List.replicate h (List.replicate w c)) = (h - 1) / 2 := by
  have hmass : mass (List.replicate h (List.replicate w c)) = h * (w * c) := by
    unfold mass
    rw [List.map_replicate, List.sum_replicate, List.sum_replicate]
    simp [smul_eq_mul, Nat.mul_assoc]
  have hmom : rowMoment (List.replicate h (List.replicate w c))
      = (List.range h).sum * (w * c) := by
    unfold rowMoment
    rw [List.length_replicate]
    rw [map_congr_mem _ (fun i => i * (w * c)) (List.range h) ?_]
    · exact sum_map_mul (w * c) (List.range h)
    · intro i hi
      rw [getD_replicate _ _ h i, if_pos (List.mem_range.mp hi), List.sum_replicate]
      simp [smul_eq_mul]
  unfold yCenterFloor
  rw [hmom, hmass, Nat.mul_div_mul_right _ _ (by positivity), range_sum_div h hh]

theorem uniform_xCenterFloor (h w c : Nat) (hh : 0 < h) (hw : 0 < w) (hc : 0 < c) :
    xCenterFloor (List.replicate h (List.replicate w c)) = (w - 1) / 2 := by
  have hmass : mass (List.replicate h (List.replicate w c)) = h * (w * c) := by
    unfold mass
    rw [List.map_replicate, List.sum_replicate, List.sum_replicate]
    simp [smul_eq_mul, Nat.mul_assoc]
  have hmom : colMoment (List.replicate h (List.replicate w c))
      = h * ((List.range w).sum * c) := by
    unfold colMoment
    rw [List.map_replicate, List.sum_replicate, smul_eq_mul]
    congr 1
    rw [List.length_replicate]
    rw [map_congr_mem _ (fun j => j * c) (List.range w) ?_]
    · exact sum_map_mul c (List.range w)
    · intro j hj
      rw [getD_replicate _ _ w j, if_pos (List.mem_range.mp hj)]
  unfold xCenterFloor
  rw [hmom, hmass, Nat.mul_div_mul_left _ _ hh,
    Nat.mul_div_mul_right _ _ hc, range_sum_div w hw]

/-! ## Claims -/

/-- Claim C1 (evaluation at the failing input): on the 1x2 grid `[[1,0]]`
with threshold 0, whose only above-threshold pixel is at `(0,0)`,
`find_zero_bounding_box` returns `(0,1,0,0)` — an empty column range —
instead of the tight box `(0,1,0,1)` the claim requires: the right-edge
scan initializes from `shape[0]` (the row count 1), not `shape[1]`. -/
theorem claim_C1_failing_eval :
    findZeroBoundingBox [[1, 0]] 0 = (0, 1, 0, 0) ∧
    findZeroBoundingBox [[1, 0]] 0 ≠ (0, 1, 0, 1) := by decide

/-- Claim C2, counterexample: the uniform 2x2 grid of ones placed into a
4x4 canvas lands with its top-left at `(2,2)`, not at
`((4-2)//2, (4-2)//2) = (1,1)` as the claim states, although the natural
placement fits without clamping. -/
theorem claim_C2_counterexample :
    centerInImage [[1, 1], [1, 1]] 4 4
      = Except.ok [[0, 0, 0, 0], [0, 0, 0, 0], [0, 0, 1, 1], [0, 0, 1, 1]] ∧
    centerInImage [[1, 1], [1, 1]] 4 4
      ≠ Except.ok [[0, 0, 0, 0], [0, 1, 1, 0], [0, 1, 1, 0], [0, 0, 0, 0]] := by decide

/-- Claim C2 as amended: for a uniform positive input of shape `(h, w)`
into a strictly larger canvas `(H, W)`, `center_in_image` places the block
starting at row `H//2 - (h-1)//2` and column `W//2 - (w-1)//2` (which
equals `((H-h)//2, (W-w)//2)` exactly when both `H, h` are odd and both
`W, w` are odd). -/
theorem claim_C2_amended (h w c outH outW : Nat) (hh : 0 < h) (hw : 0 < w) (hc : 0 < c)
    (hH : h < outH) (hW : w < outW) :
    rowStart (List.replicate h (List.replicate w c)) outH
      = ((outH / 2 : Nat) : Int) - (((h - 1) / 2 : Nat) : Int) ∧
    colStart (List.replicate h (List.replicate w c)) outW
      = ((outW / 2 : Nat) : Int) - (((w - 1) / 2 : Nat) : Int) := by
  have hlen : (List.replicate h (List.replicate w c)).length = h := by simp
  have hs1 : shape1 (List.replicate h (List.replicate w c)) = w := by
    cases h with
    | zero => omega
    | succ m => simp [shape1, List.replicate_succ]
  have hy := uniform_yCenterFloor h w c hh hw hc
  have hx := uniform_xCenterFloor h w c hh hw hc
  have hdy : axDiff outH ((h - 1) / 2) = ((outH / 2 : Nat) : Int) - (((h - 1) / 2 : Nat) : Int) := by
    unfold axDiff; omega
  have hdx : axDiff outW ((w - 1) / 2) = ((outW / 2 : Nat) : Int) - (((w - 1) / 2 : Nat) : Int) := by
    unfold axDiff; omega
  constructor
  · unfold rowStart
    rw [hlen, hy]
    rw [(axStart_of_fits outH h ((h - 1) / 2) (by rw [hdy]; omega)).2, hdy]
  · unfold colStart
    rw [hs1, hx]
    rw [(axStart_of_fits outW w ((w - 1) / 2) (by rw [hdx]; omega)).2, hdx]

/-- Witness for the amended claim C2: a uniform 2x2 grid of ones into a
4x4 canvas is placed with its top-left at row 2, column 2. -/
theorem claim_C2_amended_witness :
    (0 < 2 ∧ 0 < 2 ∧ 0 < 1 ∧ 2 < 4 ∧ 2 < 4) ∧
    (rowStart (List.replicate 2 (List.replicate 2 1)) 4 = ((4 / 2 : Nat) : Int) - (((2 - 1) / 2 : Nat) : Int) ∧
     colStart (List.replicate 2 (List.replicate 2 1)) 4 = ((4 / 2 : Nat) : Int) - (((2 - 1) / 2 : Nat) : Int)) :=
  ⟨by decide, claim_C2_amended 2 2 1 4 4 (by decide) (by decide) (by decide) (by decide) (by decide)⟩

/-- Claim C3: for a nonempty grid in which every pixel is at most the
threshold, `find_zero_bounding_box` returns a degenerate box (top strictly
greater than the exclusive bottom, or left strictly greater than the
exclusive right) and slicing the grid by that box yields the empty grid. -/
theorem claim_C3 (g : Grid) (t : Nat) (hg : 0 < g.length)
    (hbg : ∀ row ∈ g, ∀ v ∈ row, v ≤ t) :
    ((findZeroBoundingBox g t).1 > (findZeroBoundingBox g t).2.1 ∨
      (findZeroBoundingBox g t).2.2.1 > (findZeroBoundingBox g t).2.2.2) ∧
    crop g (findZeroBoundingBox g t).1 (findZeroBoundingBox g t).2.1
      (findZeroBoundingBox g t).2.2.1 (findZeroBoundingBox g t).2.2.2 = [] := by
  have hall : ∀ row ∈ g, rowIsBg t row = true := by
    intro row hr
    simp only [rowIsBg, List.all_eq_true, decide_eq_true_eq]
    exact fun v hv => hbg row hr v hv
  have h1 : leadingBg g t = g.length := by
    unfold leadingBg; rw [takeWhile_all g hall]
  have h2 : leadingBg g.reverse t = g.length := by
    unfold leadingBg
    rw [takeWhile_all g.reverse (fun r hr => hall r (List.mem_reverse.mp hr))]
    simp
  have htop : (findZeroBoundingBox g t).1 = (g.length : Int) := by
    simp [findZeroBoundingBox, h1]
  have hbot : (findZeroBoundingBox g t).2.1 = 0 := by
    simp [findZeroBoundingBox, h2]
  constructor
  · left
    rw [htop, hbot]
    omega
  · unfold crop
    have hrows : pySlice g (findZeroBoundingBox g t).1 (findZeroBoundingBox g t).2.1 = [] := by
      rw [htop, hbot]
      unfold pySlice pyIdx
      split_ifs <;> simp
    rw [hrows]
    rfl

/-- Witness for claim C3 on the all-background grid `[[0]]`. -/
theorem claim_C3_witness :
    (0 < ([[0]] : Grid).length ∧ (∀ row ∈ ([[0]] : Grid), ∀ v ∈ row, v ≤ 0)) ∧
    (((findZeroBoundingBox [[0]] 0).1 > (findZeroBoundingBox [[0]] 0).2.1 ∨
       (findZeroBoundingBox [[0]] 0).2.2.1 > (findZeroBoundingBox [[0]] 0).2.2.2) ∧
     crop [[0]] (findZeroBoundingBox [[0]] 0).1 (findZeroBoundingBox [[0]] 0).2.1
       (findZeroBoundingBox [[0]] 0).2.2.1 (findZeroBoundingBox [[0]] 0).2.2.2 = []) :=
  ⟨⟨by decide, by decide⟩, claim_C3 [[0]] 0 (by decide) (by decide)⟩

/-- Claim C4: for any 2D input strictly smaller than the canvas in both
axes (and with positive total intensity, so the center of mass is
defined), the clamped offsets are non-negative and the placement
rectangle `[rowStart, rowStart+h) x [colStart, colStart+w)` lies entirely
inside the canvas, so the final copy is in bounds. -/
theorem claim_C4 (g : Grid) (outH outW : Nat) (hm : 0 < mass g)
    (hH : g.length < outH) (hW : shape1 g < outW) :
    0 ≤ yDiff g outH ∧ 0 ≤ xDiff g outW ∧
    0 ≤ rowStart g outH ∧ rowStart g outH + (g.length : Int) ≤ (outH : Int) ∧
    0 ≤ colStart g outW ∧ colStart g outW + (shape1 g : Int) ≤ (outW : Int) := by
  obtain ⟨hy0, hy1, -, -⟩ := axStart_spec outH g.length (yCenterFloor g) hH
  obtain ⟨hx0, hx1, -, -⟩ := axStart_spec outW (shape1 g) (xCenterFloor g) hW
  unfold rowStart colStart yDiff xDiff
  unfold axDiff
  refine ⟨by omega, by omega, hy0, by omega, hx0, by omega⟩

/-- Witness for claim C4: the 1x1 grid `[[5]]` into a 3x3 canvas. -/
theorem claim_C4_witness :
    (0 < mass [[5]] ∧ ([[5]] : Grid).length < 3 ∧ shape1 [[5]] < 3) ∧
    (0 ≤ yDiff [[5]] 3 ∧ 0 ≤ xDiff [[5]] 3 ∧
     0 ≤ rowStart [[5]] 3 ∧ rowStart [[5]] 3 + (([[5]] : Grid).length : Int) ≤ (3 : Int) ∧
     0 ≤ colStart [[5]] 3 ∧ colStart [[5]] 3 + ((shape1 [[5]] : Nat) : Int) ≤ (3 : Int)) :=
  ⟨⟨by decide, by decide, by decide⟩, claim_C4 [[5]] 3 3 (by decide) (by decide) (by decide)⟩

/-- Claim C5: `center_in_image` fails with a shape error exactly when the
output is not strictly taller, or not strictly wider, than the input (the
checks of lines 92-100); with both dimensions strictly larger no shape
error is raised. -/
theorem claim_C5 (g : Grid) (outH outW : Nat) :
    isShapeErr (centerInImage g outH outW) = true ↔
      (outH ≤ g.length ∨ outW ≤ shape1 g) := by
  unfold centerInImage
  split_ifs with h1 h2 h3 <;> simp [isShapeErr] <;> omega

/-- Claim C6 (evaluation at the failing input): cropping the grid
`[[0,0,0],[1,0,1],[0,0,0]]` by its own bounding box `(1,2,0,3)` gives the
1x3 crop `[[1,0,1]]`, but re-running `find_zero_bounding_box` on the crop
returns `(0,1,0,1)`, not the full box `(0,1,0,3)`: the right-edge scan of
the non-square crop initializes from its row count 1. -/
theorem claim_C6_failing_eval :
    findZeroBoundingBox [[0, 0, 0], [1, 0, 1], [0, 0, 0]] 0 = (1, 2, 0, 3) ∧
    crop [[0, 0, 0], [1, 0, 1], [0, 0, 0]] 1 2 0 3 = [[1, 0, 1]] ∧
    findZeroBoundingBox [[1, 0, 1]] 0 = (0, 1, 0, 1) ∧
    ((0 : Int), (1 : Int), (0 : Int), (1 : Int)) ≠ ((0 : Int), (1 : Int), (0 : Int), (3 : Int)) := by
  decide

/-- Claim C7: both functions fail with the invalid-rank error exactly when
the input array is not 2-dimensional. -/
theorem claim_C7 (a : NpArr) (t outH outW : Nat) :
    (isRankErr (findZeroBoundingBoxND a t) = true ↔ a.shape.length ≠ 2) ∧
    (isRankErr (centerInImageND a outH outW) = true ↔ a.shape.length ≠ 2) := by
  constructor
  · unfold findZeroBoundingBoxND
    split_ifs with h <;> simp [isRankErr, h]
  · unfold centerInImageND
    split_ifs with h
    · simp [isRankErr, h]
    · rw [isRankErr_centerInImage]
      simp [h]

/-- Claim C9: on an 8-bit grid, the pipeline's `np.invert` step equals the
pixelwise map `v → 255 - v`, so the bounding box, the crop and the whole
pipeline output on the inverted grid coincide with running the pipeline,
invert disabled, on the manually pre-inverted grid. -/
theorem claim_C9 (g : Grid) (t outH outW : Nat)
    (hv : ∀ row ∈ g, ∀ v ∈ row, v ≤ 255) :
    findZeroBoundingBox (g.map (List.map npInvert8)) t
      = findZeroBoundingBox (g.map (List.map (fun v => 255 - v))) t ∧
    crop (g.map (List.map npInvert8))
        (findZeroBoundingBox (g.map (List.map npInvert8)) t).1
        (findZeroBoundingBox (g.map (List.map npInvert8)) t).2.1
        (findZeroBoundingBox (g.map (List.map npInvert8)) t).2.2.1
        (findZeroBoundingBox (g.map (List.map npInvert8)) t).2.2.2
      = crop (g.map (List.map (fun v => 255 - v)))
        (findZeroBoundingBox (g.map (List.map (fun v => 255 - v))) t).1
        (findZeroBoundingBox (g.map (List.map (fun v => 255 - v))) t).2.1
        (findZeroBoundingBox (g.map (List.map (fun v => 255 - v))) t).2.2.1
        (findZeroBoundingBox (g.map (List.map (fun v => 255 - v))) t).2.2.2 ∧
    runPipeline true g t outH outW
      = runPipeline false (g.map (List.map (fun v => 255 - v))) t outH outW := by
  have hinv : ∀ v, v ≤ 255 → npInvert8 v = 255 - v :=
    fun v hv => npInvert8_eq_sub v (by omega)
  have hg : g.map (List.map npInvert8) = g.map (List.map (fun v => 255 - v)) := by
    apply map_congr_mem
    intro row hr
    apply map_congr_mem
    intro v hvv
    exact hinv v (hv row hr v hvv)
  refine ⟨by rw [hg], by rw [hg], ?_⟩
  unfold runPipeline
  simp only [if_true, if_false, Bool.false_eq_true, ite_true, ite_false]
  rw [hg]

/-- Witness for claim C9 on the 8-bit grid `[[200,0],[0,100]]`. -/
theorem claim_C9_witness :
    (∀ row ∈ ([[200, 0], [0, 100]] : Grid), ∀ v ∈ row, v ≤ 255) ∧
    runPipeline true [[200, 0], [0, 100]] 0 4 4
      = runPipeline false (([[200, 0], [0, 100]] : Grid).map (List.map (fun v => 255 - v))) 0 4 4 :=
  ⟨by decide, (claim_C9 [[200, 0], [0, 100]] 0 4 4 (by decide)).2.2⟩

/-- Claim C10: for a nonempty rectangular grid, the exclusive right bound
returned by `find_zero_bounding_box` equals the row count `H` minus the
number of trailing all-background columns (the scan initializes the right
edge from `shape[0]`); it therefore equals the tight right bound
`W - trailing` plus `H - W`, and is the tight bound exactly when the grid
is square. -/
theorem claim_C10 (g : Grid) (t : Nat) (hg : 0 < g.length)
    (hRect : ∀ row ∈ g, row.length = shape1 g) :
    (findZeroBoundingBox g t).2.2.2 = (g.length : Int) - (trailingBgCols g t : Int) ∧
    (findZeroBoundingBox g t).2.2.2
      = ((shape1 g : Int) - (trailingBgCols g t : Int))
        + ((g.length : Int) - (shape1 g : Int)) ∧
    ((findZeroBoundingBox g t).2.2.2 = (shape1 g : Int) - (trailingBgCols g t : Int)
      ↔ g.length = shape1 g) := by
  have h1 : (findZeroBoundingBox g t).2.2.2
      = (g.length : Int) - 1 - (leadingBg (colsOf g).reverse t : Int) + 1 := by
    simp [findZeroBoundingBox]
  have h2 : trailingBgCols g t = leadingBg (colsOf g).reverse t := rfl
  rw [h1, h2]
  omega

/-- Witness for claim C10 on the rectangular 1x2 grid `[[1,0]]`. -/
theorem claim_C10_witness :
    (0 < ([[1, 0]] : Grid).length ∧ (∀ row ∈ ([[1, 0]] : Grid), row.length = shape1 [[1, 0]])) ∧
    ((findZeroBoundingBox [[1, 0]] 0).2.2.2
        = ((([[1, 0]] : Grid).length : Nat) : Int) - (trailingBgCols [[1, 0]] 0 : Int) ∧
     (findZeroBoundingBox [[1, 0]] 0).2.2.2
        = ((shape1 [[1, 0]] : Int) - (trailingBgCols [[1, 0]] 0 : Int))
          + (((([[1, 0]] : Grid).length : Nat) : Int) - (shape1 [[1, 0]] : Int)) ∧
     ((findZeroBoundingBox [[1, 0]] 0).2.2.2
        = (shape1 [[1, 0]] : Int) - (trailingBgCols [[1, 0]] 0 : Int)
       ↔ ([[1, 0]] : Grid).length = shape1 [[1, 0]])) :=
  ⟨⟨by decide, by decide⟩, claim_C10 [[1, 0]] 0 (by decide) (by decide)⟩

/-- Claim C8: for a valid call (2D rectangular 8-bit input with positive
total intensity, output strictly larger in both axes) `center_in_image`
succeeds and the returned canvas holds the input's values exactly on the
placement rectangle and 0 everywhere else. -/
theorem claim_C8 (g : Grid) (outH outW : Nat) (hm : 0 < mass g)
    (hH : g.length < outH) (hW : shape1 g < outW)
    (hRect : ∀ row ∈ g, row.length = shape1 g)
    (hv : ∀ row ∈ g, ∀ v ∈ row, v ≤ 255) :
    ∃ out, centerInImage g outH outW = Except.ok out ∧
      ∀ r, r < outH → ∀ c, c < outW →
        cellN out r c =
          if (rowStart g outH).toNat ≤ r ∧ r < (rowStart g outH).toNat + g.length ∧
             (colStart g outW).toNat ≤ c ∧ c < (colStart g outW).toNat + shape1 g
          then cellN g (r - (rowStart g outH).toNat) (c - (colStart g outW).toNat)
          else 0 := by
  obtain ⟨hy0, hy1, hy2, hy3⟩ := axStart_spec outH g.length (yCenterFloor g) hH
  obtain ⟨hx0, hx1, hx2, hx3⟩ := axStart_spec outW (shape1 g) (xCenterFloor g) hW
  have hy2' : pyIdx outH (rowStart g outH) = (rowStart g outH).toNat := hy2
  have hy3' : pyIdx outH ((g.length : Int) + yDiff g outH)
      = (rowStart g outH).toNat + g.length := hy3
  have hx2' : pyIdx outW (colStart g outW) = (colStart g outW).toNat := hx2
  have hx3' : pyIdx outW ((shape1 g : Int) + xDiff g outW)
      = (colStart g outW).toNat + shape1 g := hx3
  have hy1' : (rowStart g outH).toNat + g.length ≤ outH := hy1
  have hx1' : (colStart g outW).toNat + shape1 g ≤ outW := hx1
  set rsN := (rowStart g outH).toNat with hrsN
  set csN := (colStart g outW).toNat with hcsN
  set w := shape1 g with hwdef
  have hrow : ∀ src ∈ g,
      setRow (List.replicate outW 0) (colStart g outW) ((w : Int) + xDiff g outW) src
        = padRow csN (outW - (csN + w)) src := by
    intro src hs
    have hsl : src.length = w := hRect src hs
    have hmap : src.map (fun v => v % 256) = src := by
      have heq : src.map (fun v => v % 256) = src.map id :=
        map_congr_mem (fun v => v % 256) id src
          (fun v hvv => Nat.mod_eq_of_lt (by have := hv src hs v hvv; omega))
      rw [heq, List.map_id]
    simp only [setRow, padRow]
    rw [List.length_replicate, hx2', hx3', hmap]
    have htk : csN + w - csN = w := by omega
    rw [htk, List.take_replicate, Nat.min_eq_left (by omega), List.drop_replicate]
    congr 1
    rw [← hsl, List.take_length]
  have hcenter : centerInImage g outH outW
      = Except.ok (setSlice2 (List.replicate outH (List.replicate outW 0))
          (rowStart g outH) ((g.length : Int) + yDiff g outH)
          (colStart g outW) ((w : Int) + xDiff g outW) g) := by
    unfold centerInImage
    rw [if_neg (by omega), if_neg (by omega), if_neg (by omega)]
  have hout : setSlice2 (List.replicate outH (List.replicate outW 0))
      (rowStart g outH) ((g.length : Int) + yDiff g outH)
      (colStart g outW) ((w : Int) + xDiff g outW) g
      = List.replicate rsN (List.replicate outW 0)
        ++ g.map (padRow csN (outW - (csN + w)))
        ++ List.replicate (outH - (rsN + g.length)) (List.replicate outW 0) := by
    simp only [setSlice2]
    rw [List.length_replicate, hy2', hy3']
    have hd1 : rsN + g.length - rsN = g.length := by omega
    rw [hd1, List.take_replicate, Nat.min_eq_left (by omega), List.drop_replicate,
      List.take_replicate, Nat.min_eq_left (by omega), List.drop_replicate]
    congr 1
    congr 1
    rw [zipWith_replicate_left]
    exact map_congr_mem _ _ g hrow
  refine ⟨_, hcenter.trans (congrArg Except.ok hout), ?_⟩
  intro r hr c hc
  unfold cellN
  have hBl : (g.map (padRow csN (outW - (csN + w)))).length = g.length := by simp
  rw [padded_getD rsN (outH - (rsN + g.length)) (List.replicate outW 0) []
      (g.map (padRow csN (outW - (csN + w)))) r, hBl]
  by_cases h1 : rsN ≤ r ∧ r < rsN + g.length
  · rw [if_pos h1,
      getD_map_of_lt (padRow csN (outW - (csN + w))) [] [] g (r - rsN) (by omega)]
    have hsmem : g.getD (r - rsN) [] ∈ g := getD_mem_of_lt [] g (r - rsN) (by omega)
    have hsl : (g.getD (r - rsN) []).length = w := hRect _ hsmem
    simp only [padRow]
    rw [padded_getD csN (outW - (csN + w)) 0 0 (g.getD (r - rsN) []) c, hsl]
    split_ifs <;> first | rfl | (exfalso; omega)
  · rw [if_neg h1,
      if_neg (show ¬(rsN ≤ r ∧ r < rsN + g.length ∧ csN ≤ c ∧ c < csN + w) from by omega)]
    split_ifs
    · rw [getD_replicate]
      split_ifs <;> rfl
    · rfl

/-- Witness for claim C8: the 1x1 grid `[[5]]` into a 3x3 canvas. -/
theorem claim_C8_witness :
    (0 < mass [[5]] ∧ ([[5]] : Grid).length < 3 ∧ shape1 [[5]] < 3 ∧
     (∀ row ∈ ([[5]] : Grid), row.length = shape1 [[5]]) ∧
     (∀ row ∈ ([[5]] : Grid), ∀ v ∈ row, v ≤ 255)) ∧
    (∃ out, centerInImage [[5]] 3 3 = Except.ok out ∧
      ∀ r, r < 3 → ∀ c, c < 3 →
        cellN out r c =
          if (rowStart [[5]] 3).toNat ≤ r ∧ r < (rowStart [[5]] 3).toNat + ([[5]] : Grid).length ∧
             (colStart [[5]] 3).toNat ≤ c ∧ c < (colStart [[5]] 3).toNat + shape1 [[5]]
          then cellN [[5]] (r - (rowStart [[5]] 3).toNat) (c - (colStart [[5]] 3).toNat)
          else 0) :=
  ⟨⟨by decide, by decide, by decide, by decide, by decide⟩,
    claim_C8 [[5]] 3 3 (by decide) (by decide) (by decide) (by decide) (by decide)⟩

end ZeroCropCenter
